import Mathlib

/-!
Shallow embedding of the out-of-order core simulator
(`src/MultiCoreSim/model`): the reorder buffer (`ROB.cc`), the
load-store queue (`LSQ.cc`) and the trace driver
(`CpuCoreGenerator.cc`), together with the bounded FIFOs of
`MemTemplate.h`.  Queues are lists whose head is the oldest (front)
entry; `push_back` appends at the tail.  The `m_num_entries` counters
of the C++ classes always equal the container size, so the embedding
uses `List.length` directly.  Logging statements of the source are
ignored; null-pointer guards on the ROB/LSQ/FIFO links are modelled
with the linked component present, which is how the driver wires them.
-/

/-- Request types of `CpuFIFO::REQTYPE` in `MemTemplate.h`. -/
inductive REQTYPE where
  | READ
  | WRITE
  | REPLACE
  | COMPUTE
deriving DecidableEq, Repr

/-- Request record `CpuFIFO::ReqMsg` (`MemTemplate.h`); the unused
`data[8]` payload is omitted.  The field `fifoInserionCycle` keeps the
spelling of the source. -/
structure ReqMsg where
  msgId : Nat
  reqCoreId : Nat
  addr : Nat
  cycle : Nat
  fifoInserionCycle : Nat
  type : REQTYPE
  ready : Bool
deriving DecidableEq, Repr

/-- Response record `CpuFIFO::RespMsg` (`MemTemplate.h`). -/
structure RespMsg where
  msgId : Nat
  addr : Nat
  reqcycle : Nat
  cycle : Nat
deriving DecidableEq, Repr

/-- Bounded FIFO `GenericFIFO<T>` of `MemTemplate.h`. -/
structure GenericFIFO (T : Type) where
  buf : List T
  fifoDepth : Nat
deriving DecidableEq, Repr

/-- Full test of `GenericFIFO::IsFull`: size equals the configured depth. -/
def GenericFIFO.IsFull (f : GenericFIFO T) : Bool :=
  f.buf.length == f.fifoDepth

/-- Emptiness test of `GenericFIFO::IsEmpty`. -/
def GenericFIFO.IsEmpty (f : GenericFIFO T) : Bool :=
  f.buf.isEmpty

/-- Enqueue of `GenericFIFO::InsertElement` (push at the back). -/
def GenericFIFO.InsertElement (f : GenericFIFO T) (msg : T) : GenericFIFO T :=
  { f with buf := f.buf ++ [msg] }

/-- Entry of the reorder buffer, `ROB::ROBEntry` (`ROB.h`). -/
structure ROBEntry where
  request : ReqMsg
  ready : Bool
deriving DecidableEq, Repr

/-- Entry of the load-store queue, `LSQ::LSQEntry` (`LSQ.h`). -/
structure LSQEntry where
  request : ReqMsg
  ready : Bool
  waitingForCache : Bool
  cache_ack : Bool
deriving DecidableEq, Repr

/-- Capacity constant `ROB::MAX_ENTRIES` (`ROB.h`). -/
def ROB.MAX_ENTRIES : Nat := 32

/-- Retire-rate constant `ROB::IPC` (`ROB.h`). -/
def ROB.IPC : Nat := 4

/-- Capacity constant `LSQ::MAX_ENTRIES` (`LSQ.h`). -/
def LSQ.MAX_ENTRIES : Nat := 8

/-- Embedding of `ROB::canAccept` (`ROB.cc`). -/
def ROB.canAccept (rob : List ROBEntry) : Bool :=
  rob.length < ROB.MAX_ENTRIES

/-- Embedding of `ROB::allocate` (`ROB.cc`): append at the tail if
space is available; the entry is born ready exactly for COMPUTE
requests.  Returns `none` when the ROB is full (the C++ returns
`false` and leaves the queue unchanged). -/
def ROB.allocate (rob : List ROBEntry) (request : ReqMsg) : Option (List ROBEntry) :=
  if ROB.canAccept rob then
    some (rob ++ [{ request := request, ready := request.type == REQTYPE.COMPUTE }])
  else
    none

/-- Embedding of `ROB::commit` (`ROB.cc`): mark the first entry whose
`msgId` matches as ready; a miss is a logged no-op. -/
def ROB.commit : List ROBEntry → Nat → List ROBEntry
  | [], _ => []
  | e :: rest, requestId =>
    if e.request.msgId == requestId then { e with ready := true } :: rest
    else e :: ROB.commit rest requestId

/-- Embedding of `ROB::removeLastEntry` (`ROB.h`): pop the tail entry,
silently doing nothing on an empty queue. -/
def ROB.removeLastEntry (rob : List ROBEntry) : List ROBEntry :=
  if rob.isEmpty then rob else rob.dropLast

/-- Marking pass of `LSQ::ldFwd` (`LSQ.cc` lines 91-103): walk the
whole queue and set every not-yet-ready LOAD to the given address
ready, committing each to the ROB. -/
def LSQ.ldFwdMark : List LSQEntry → List ROBEntry → Nat → List LSQEntry × List ROBEntry
  | [], rob, _ => ([], rob)
  | e :: rest, rob, address =>
    if e.request.type == REQTYPE.READ && e.request.addr == address && !e.ready then
      let rob1 := ROB.commit rob e.request.msgId
      let p := LSQ.ldFwdMark rest rob1 address
      ({ e with ready := true } :: p.1, p.2)
    else
      let p := LSQ.ldFwdMark rest rob address
      (e :: p.1, p.2)

/-- Embedding of `LSQ::ldFwd` (`LSQ.cc` lines 78-113): scan from the
tail (youngest) towards the head for a STORE to the address; when one
exists, run the marking pass over the whole queue and return `true`,
otherwise return `false` with nothing changed. -/
def LSQ.ldFwd (q : List LSQEntry) (rob : List ROBEntry) (address : Nat) :
    Bool × List LSQEntry × List ROBEntry :=
  if (q.reverse.find? (fun e =>
      e.request.type == REQTYPE.WRITE && e.request.addr == address)).isSome then
    let p := LSQ.ldFwdMark q rob address
    (true, p.1, p.2)
  else
    (false, q, rob)

/-- Embedding of `LSQ::canAccept` (`LSQ.cc`). -/
def LSQ.canAccept (q : List LSQEntry) : Bool :=
  q.length < LSQ.MAX_ENTRIES

/-- Default-initialized entry fields of `LSQ::allocate` before the
type-specific adjustments. -/
def LSQ.mkEntry (request : ReqMsg) (ready : Bool) : LSQEntry :=
  { request := request, ready := ready, waitingForCache := false, cache_ack := false }

/-- Embedding of `LSQ::allocate` (`LSQ.cc` lines 34-76): a WRITE is
born ready and committed to the ROB; a READ first runs `ldFwd` on the
existing queue and is born ready (with a ROB commit) exactly when a
matching store was found; then the new entry is appended.  Returns
`none` when the LSQ is full (C++ returns `false`, queue unchanged). -/
def LSQ.allocate (q : List LSQEntry) (rob : List ROBEntry) (request : ReqMsg) :
    Option (List LSQEntry × List ROBEntry) :=
  if LSQ.canAccept q then
    if request.type == REQTYPE.WRITE then
      let rob1 := ROB.commit rob request.msgId
      some (q ++ [LSQ.mkEntry request true], rob1)
    else if request.type == REQTYPE.READ then
      let p := LSQ.ldFwd q rob request.addr
      if p.1 then
        let rob1 := ROB.commit p.2.2 request.msgId
        some (p.2.1 ++ [LSQ.mkEntry request true], rob1)
      else
        some (p.2.1 ++ [LSQ.mkEntry request false], p.2.2)
    else
      some (q ++ [LSQ.mkEntry request false], rob)
  else
    none

/-- Send predicate of the `LSQ::pushToCache` scan (`LSQ.cc` lines
121-144): a ready STORE not yet sent, or a not-ready LOAD not yet
sent. -/
def LSQ.sendable (e : LSQEntry) : Bool :=
  (e.request.type == REQTYPE.WRITE && e.ready && !e.waitingForCache) ||
  (e.request.type == REQTYPE.READ && !e.ready && !e.waitingForCache)

/-- Scan loop of `LSQ::pushToCache`: mark the first sendable entry as
waiting and insert its request into the TX FIFO, then break. -/
def LSQ.pushLoop : List LSQEntry → GenericFIFO ReqMsg → List LSQEntry × GenericFIFO ReqMsg
  | [], tx => ([], tx)
  | e :: rest, tx =>
    if LSQ.sendable e then
      ({ e with waitingForCache := true } :: rest, tx.InsertElement e.request)
    else
      let p := LSQ.pushLoop rest tx
      (e :: p.1, p.2)

/-- Embedding of `LSQ::pushToCache` (`LSQ.cc` lines 115-146): bail out
on an empty queue or a full TX FIFO, otherwise run the scan loop. -/
def LSQ.pushToCache (q : List LSQEntry) (tx : GenericFIFO ReqMsg) :
    List LSQEntry × GenericFIFO ReqMsg :=
  if q.isEmpty || tx.IsFull then (q, tx) else LSQ.pushLoop q tx

/-- Removal predicate `can_remove` of `LSQ::retire` (`LSQ.cc` lines
188-210): a LOAD is removable iff ready, anything else iff
`cache_ack`. -/
def LSQ.canRemove (e : LSQEntry) : Bool :=
  if e.request.type == REQTYPE.READ then e.ready else e.cache_ack

/-- Embedding of `LSQ::retire` (`LSQ.cc` lines 182-219): walk the
whole queue erasing every entry whose removal predicate holds and
keeping the others. -/
def LSQ.retire : List LSQEntry → List LSQEntry
  | [] => []
  | e :: rest =>
    if LSQ.canRemove e then LSQ.retire rest else e :: LSQ.retire rest

/-- Embedding of `LSQ::commit` (`LSQ.cc` lines 221-258): find the
first entry with the given `msgId`; a WRITE gets `cache_ack` set, a
READ gets `ready` set, is committed to the ROB, and `ldFwd` is re-run
on its address; a miss is a logged no-op. -/
def LSQ.commit (q : List LSQEntry) (rob : List ROBEntry) (requestId : Nat) :
    List LSQEntry × List ROBEntry :=
  match q.findIdx? (fun e => e.request.msgId == requestId) with
  | none => (q, rob)
  | some i =>
    match q[i]? with
    | none => (q, rob)
    | some e =>
      if e.request.type == REQTYPE.WRITE then
        (q.set i { e with cache_ack := true }, rob)
      else if e.request.type == REQTYPE.READ then
        let q1 := q.set i { e with ready := true }
        let rob1 := ROB.commit rob e.request.msgId
        let p := LSQ.ldFwd q1 rob1 e.request.addr
        (p.2.1, p.2.2)
      else
        (q, rob)

/-- Embedding of `LSQ::rxFromCache` (`LSQ.cc` lines 148-180): pop one
response from the RX FIFO and apply it to the first entry with the
matching `msgId`: a READ becomes ready, is committed to the ROB and
re-runs `ldFwd`; any other type gets `cache_ack` set. -/
def LSQ.rxApply (q : List LSQEntry) (rob : List ROBEntry) (response : RespMsg) :
    List LSQEntry × List ROBEntry :=
  match q.findIdx? (fun e => e.request.msgId == response.msgId) with
  | none => (q, rob)
  | some i =>
    match q[i]? with
    | none => (q, rob)
    | some e =>
      if e.request.type == REQTYPE.READ then
        let q1 := q.set i { e with ready := true }
        let rob1 := ROB.commit rob e.request.msgId
        let p := LSQ.ldFwd q1 rob1 e.request.addr
        (p.2.1, p.2.2)
      else
        (q.set i { e with cache_ack := true }, rob)

/-- FIFO-popping wrapper of `LSQ::rxFromCache`: nothing happens on an
empty RX FIFO. -/
def LSQ.rxFromCache (q : List LSQEntry) (rob : List ROBEntry) (rx : GenericFIFO RespMsg) :
    List LSQEntry × List ROBEntry × GenericFIFO RespMsg :=
  match rx.buf with
  | [] => (q, rob, rx)
  | response :: rest =>
    let p := LSQ.rxApply q rob response
    (p.1, p.2, { rx with buf := rest })

/-- Retirement loop of `ROB::retire` (`ROB.cc` lines 96-132), with the
remaining retire budget as fuel: while the queue is non-empty, the
budget is positive and the head is ready, notify the LSQ for a WRITE
head (`LSQ::commit`, which may in turn touch the ROB flags) and then
erase the head. -/
def ROB.retireLoop : Nat → List ROBEntry → List LSQEntry → List ROBEntry × List LSQEntry
  | 0, rob, lsq => (rob, lsq)
  | _ + 1, [], lsq => ([], lsq)
  | fuel + 1, head :: rest, lsq =>
    if head.ready then
      let p :=
        if head.request.type == REQTYPE.WRITE then
          LSQ.commit lsq (head :: rest) head.request.msgId
        else
          (lsq, head :: rest)
      ROB.retireLoop fuel p.2.tail p.1
    else
      (head :: rest, lsq)

/-- Embedding of `ROB::retire` (`ROB.cc` lines 86-140): run the
retirement loop with budget `IPC`. -/
def ROB.retire (rob : List ROBEntry) (lsq : List LSQEntry) :
    List ROBEntry × List LSQEntry :=
  ROB.retireLoop ROB.IPC rob lsq

/-- Embedding of `ROB::step` (`ROB.cc` lines 16-54): from cycle 60 on
the function only prints the final state and returns without retiring
or advancing the cycle; below 60 it retires and increments the
cycle. -/
def ROB.step (rob : List ROBEntry) (lsq : List LSQEntry) (cycle : Nat) :
    List ROBEntry × List LSQEntry × Nat :=
  if 60 ≤ cycle then (rob, lsq, cycle)
  else
    let p := ROB.retire rob lsq
    (p.1, p.2, cycle + 1)

/-- Embedding of `LSQ::step` (`LSQ.cc` lines 17-25): `pushToCache`
then `retire`; the `rxFromCache` call is commented out in the
source. -/
def LSQ.step (q : List LSQEntry) (tx : GenericFIFO ReqMsg) :
    List LSQEntry × GenericFIFO ReqMsg :=
  let p := LSQ.pushToCache q tx
  (LSQ.retire p.1, p.2)

/-- Type token of a benchmark trace line: R, W, or any other string. -/
inductive TraceOp where
  | R
  | W
  | other
deriving DecidableEq, Repr

/-- Parse result of one benchmark trace line consumed by
`CpuCoreGenerator::ProcessTxBuf`: a well-formed line carries a compute
count, an address and the type token (only R and W set up a memory
request); a malformed line is skipped with a warning. -/
inductive TraceItem where
  | line (compute_count : Nat) (addr : Nat) (ty : TraceOp)
  | malformed
deriving DecidableEq, Repr

/-- State of `CpuCoreGenerator` (`CpuCoreGenerator.h` members used by
`ProcessTxBuf` and `ProcessRxBuf`).  The benchmark trace stream is
modelled as the list of its remaining parsed lines; the flag
`cpuReqDone` plays the role of both `m_cpuReqDone` and the stream eof
bit, which the source sets and tests together. -/
structure CoreState where
  rob : List ROBEntry
  lsq : List LSQEntry
  txFIFO : GenericFIFO ReqMsg
  rxFIFO : GenericFIFO RespMsg
  coreId : Nat
  cpuCycle : Nat
  remaining_compute : Nat
  newSampleRdy : Bool
  cpuReqDone : Bool
  cpuCoreSimDone : Bool
  sent_requests : Nat
  number_of_OoO_requests : Nat
  cpuReqCnt : Nat
  cpuRespCnt : Nat
  cpuMemReq : ReqMsg
  trace : List TraceItem
deriving DecidableEq, Repr

/-- Compute-dispatch block of `CpuCoreGenerator::ProcessTxBuf`
(`CpuCoreGenerator.cc` lines 171-196): when the ROB can accept and the
in-flight count is below the OoO budget, create a fresh COMPUTE
request (consuming a `msgId`), allocate it in the ROB and on success
decrement the pending compute count and increment the in-flight
count. -/
def CpuCoreGenerator.computeDispatch (s : CoreState) : CoreState :=
  if ROB.canAccept s.rob ∧ s.sent_requests < s.number_of_OoO_requests then
    let compute_req : ReqMsg :=
      { msgId := s.cpuReqCnt, reqCoreId := s.coreId, addr := 0,
        cycle := s.cpuCycle, fifoInserionCycle := 0,
        type := REQTYPE.COMPUTE, ready := true }
    let s1 := { s with cpuReqCnt := s.cpuReqCnt + 1 }
    match ROB.allocate s1.rob compute_req with
    | some rob1 =>
      { s1 with rob := rob1,
                remaining_compute := s1.remaining_compute - 1,
                sent_requests := s1.sent_requests + 1 }
    | none => s1
  else
    s

/-- Trace-reading block of `CpuCoreGenerator::ProcessTxBuf`
(`CpuCoreGenerator.cc` lines 214-264).  The boolean result mirrors the
early `return` at line 231: a line with a positive compute count only
loads the compute counter and ends the call.  A failed `getline`
(empty stream) sets `cpuReqDone`; a line with type R or W builds
`m_cpuMemReq` (consuming a `msgId`, a W being born ready) and raises
`newSampleRdy`. -/
def CpuCoreGenerator.readTraceLine (s : CoreState) : CoreState × Bool :=
  match s.trace with
  | [] => ({ s with cpuReqDone := true }, false)
  | item :: rest =>
    let s1 := { s with trace := rest }
    match item with
    | TraceItem.malformed => (s1, false)
    | TraceItem.line compute_count addr ty =>
      let s2 := { s1 with remaining_compute := compute_count }
      if 0 < compute_count then (s2, true)
      else if ty == TraceOp.R then
        ({ s2 with
            cpuMemReq :=
              { msgId := s2.cpuReqCnt, reqCoreId := s2.coreId, addr := addr,
                cycle := s2.cpuCycle, fifoInserionCycle := 0,
                type := REQTYPE.READ, ready := false },
            cpuReqCnt := s2.cpuReqCnt + 1,
            newSampleRdy := true }, false)
      else if ty == TraceOp.W then
        ({ s2 with
            cpuMemReq :=
              { msgId := s2.cpuReqCnt, reqCoreId := s2.coreId, addr := addr,
                cycle := s2.cpuCycle, fifoInserionCycle := 0,
                type := REQTYPE.WRITE, ready := true },
            cpuReqCnt := s2.cpuReqCnt + 1,
            newSampleRdy := true }, false)
      else
        (s2, false)

/-- Co-allocation block of `CpuCoreGenerator::ProcessTxBuf`
(`CpuCoreGenerator.cc` lines 283-302): `rob.allocate`, then
`lsq.allocate`; on LSQ failure roll the ROB back with
`removeLastEntry`, on success increment the in-flight count and clear
the pending-sample flag.  The second component counts the
`removeLastEntry` (rollback) calls performed. -/
def CpuCoreGenerator.coAllocate (s : CoreState) : CoreState × Nat :=
  match ROB.allocate s.rob s.cpuMemReq with
  | none => (s, 0)
  | some rob1 =>
    match LSQ.allocate s.lsq rob1 s.cpuMemReq with
    | none => ({ s with rob := ROB.removeLastEntry rob1 }, 1)
    | some p =>
      ({ s with rob := p.2, lsq := p.1,
                sent_requests := s.sent_requests + 1,
                newSampleRdy := false }, 0)

/-- Memory-dispatch block of `CpuCoreGenerator::ProcessTxBuf`
(`CpuCoreGenerator.cc` lines 267-304): when ROB and LSQ can accept and
the in-flight count is below the budget, a READ first consults
`ldFwd` (marking the request ready on a hit), then the co-allocation
runs. -/
def CpuCoreGenerator.memDispatch (s : CoreState) : CoreState :=
  if ROB.canAccept s.rob ∧ LSQ.canAccept s.lsq ∧
      s.sent_requests < s.number_of_OoO_requests then
    let s1 :=
      if s.cpuMemReq.type == REQTYPE.READ then
        let p := LSQ.ldFwd s.lsq s.rob s.cpuMemReq.addr
        if p.1 then
          { s with lsq := p.2.1, rob := p.2.2,
                   cpuMemReq := { s.cpuMemReq with ready := true } }
        else
          { s with lsq := p.2.1, rob := p.2.2 }
      else
        s
    (CpuCoreGenerator.coAllocate s1).1
  else
    s

/-- Tail of `CpuCoreGenerator::ProcessTxBuf` after the compute block
(`CpuCoreGenerator.cc` lines 208-304): return once the budget is
exhausted, otherwise possibly read a trace line (honouring its early
return) and then attempt the memory dispatch when a sample is
pending. -/
def CpuCoreGenerator.txTail (s : CoreState) : CoreState :=
  if s.number_of_OoO_requests ≤ s.sent_requests then s
  else
    let p :=
      if !s.newSampleRdy && !s.cpuReqDone && s.remaining_compute == 0 then
        CpuCoreGenerator.readTraceLine s
      else
        (s, false)
    if p.2 then p.1
    else if p.1.newSampleRdy then CpuCoreGenerator.memDispatch p.1
    else p.1

/-- Embedding of `CpuCoreGenerator::ProcessTxBuf`
(`CpuCoreGenerator.cc` lines 153-305): `pushToCache` first (guarded by
a non-full TX FIFO), then the compute block with its early return when
compute instructions remain, then the tail stages. -/
def CpuCoreGenerator.ProcessTxBuf (s : CoreState) : CoreState :=
  let s0 :=
    if !s.txFIFO.IsFull then
      let p := LSQ.pushToCache s.lsq s.txFIFO
      { s with lsq := p.1, txFIFO := p.2 }
    else
      s
  if 0 < s0.remaining_compute then
    let s1 := CpuCoreGenerator.computeDispatch s0
    if 0 < s1.remaining_compute then s1
    else CpuCoreGenerator.txTail s1
  else
    CpuCoreGenerator.txTail s0

/-- Drain loop of `CpuCoreGenerator::ProcessRxBuf`
(`CpuCoreGenerator.cc` lines 317-345): pop every response; for each,
decrement the in-flight count (guarded against underflow) and count
the response, then notify `ROB::commit` and `LSQ::commit`. -/
def CpuCoreGenerator.rxLoop : List RespMsg → CoreState → CoreState
  | [], s => s
  | response :: rest, s =>
    let s1 :=
      if 0 < s.sent_requests then
        { s with sent_requests := s.sent_requests - 1,
                 cpuRespCnt := s.cpuRespCnt + 1 }
      else
        s
    let rob1 := ROB.commit s1.rob response.msgId
    let p := LSQ.commit s1.lsq rob1 response.msgId
    CpuCoreGenerator.rxLoop rest { s1 with rob := p.2, lsq := p.1 }

/-- Embedding of `CpuCoreGenerator::ProcessRxBuf`
(`CpuCoreGenerator.cc` lines 315-355): drain the RX FIFO, then set the
done flag when the trace is exhausted and the response count has
reached the request count. -/
def CpuCoreGenerator.ProcessRxBuf (s : CoreState) : CoreState :=
  let s1 := CpuCoreGenerator.rxLoop s.rxFIFO.buf
    { s with rxFIFO := { s.rxFIFO with buf := [] } }
  if s1.cpuReqDone ∧ s1.cpuReqCnt ≤ s1.cpuRespCnt then
    { s1 with cpuCoreSimDone := true }
  else
    s1

/-- Driver stages whose effect on the in-flight counter the invariant
claims quantify over: the TX stage and the RX stage of
`CpuCoreGenerator`. -/
inductive CoreStage where
  | tx
  | rx
deriving DecidableEq, Repr

/-- Application of one driver stage. -/
def CpuCoreGenerator.runStage : CoreStage → CoreState → CoreState
  | CoreStage.tx, s => CpuCoreGenerator.ProcessTxBuf s
  | CoreStage.rx, s => CpuCoreGenerator.ProcessRxBuf s

/-- Application of a sequence of driver stages, oldest first. -/
def CpuCoreGenerator.runStages : List CoreStage → CoreState → CoreState
  | [], s => s
  | st :: rest, s => CpuCoreGenerator.runStages rest (CpuCoreGenerator.runStage st s)

/-! Helper lemmas shared by the claim theorems. -/

theorem ROB.commit_map_request (rob : List ROBEntry) (i : Nat) :
    (ROB.commit rob i).map (fun e => e.request) = rob.map (fun e => e.request) := by
  induction rob with
  | nil => rfl
  | cons e rest ih =>
    simp only [ROB.commit]
    by_cases h : (e.request.msgId == i) = true <;> simp [h, ih]

theorem LSQ.ldFwdMark_rob_map (q : List LSQEntry) (rob : List ROBEntry) (a : Nat) :
    (LSQ.ldFwdMark q rob a).2.map (fun e => e.request) = rob.map (fun e => e.request) := by
  induction q generalizing rob with
  | nil => rfl
  | cons e rest ih =>
    simp only [LSQ.ldFwdMark]
    by_cases h : (e.request.type == REQTYPE.READ && e.request.addr == a && !e.ready) = true <;>
      simp [h, ih, ROB.commit_map_request]

theorem LSQ.ldFwd_rob_map (q : List LSQEntry) (rob : List ROBEntry) (a : Nat) :
    (LSQ.ldFwd q rob a).2.2.map (fun e => e.request) = rob.map (fun e => e.request) := by
  simp only [LSQ.ldFwd]
  by_cases h : (q.reverse.find? (fun e =>
      e.request.type == REQTYPE.WRITE && e.request.addr == a)).isSome = true <;>
    simp [h, LSQ.ldFwdMark_rob_map]

theorem LSQ.commit_rob_map (q : List LSQEntry) (rob : List ROBEntry) (i : Nat) :
    (LSQ.commit q rob i).2.map (fun e => e.request) = rob.map (fun e => e.request) := by
  unfold LSQ.commit
  split
  · rfl
  · split
    · rfl
    · split
      · rfl
      · split
        · simp [LSQ.ldFwd_rob_map, ROB.commit_map_request]
        · rfl

theorem List.map_tail_of_map_eq {α β : Type} {f : α → β} {l l' : List α}
    (h : l.map f = l'.map f) : l.tail.map f = l'.tail.map f := by
  cases l with
  | nil => cases l' with
    | nil => rfl
    | cons b t => simp at h
  | cons a t => cases l' with
    | nil => simp at h
    | cons b t' => simp_all

/-! Concrete fixtures used by counterexamples and witnesses. -/

/-- Request constructor for concrete scenarios. -/
def mkReq (i a : Nat) (t : REQTYPE) (rdy : Bool) : ReqMsg :=
  { msgId := i, reqCoreId := 0, addr := a, cycle := 0, fifoInserionCycle := 0,
    type := t, ready := rdy }

/-- An allocated LOAD to address 100 that is not yet ready (its `ldFwd`
at allocation found no store). -/
def loadOld : LSQEntry :=
  { request := mkReq 0 100 REQTYPE.READ false, ready := false,
    waitingForCache := false, cache_ack := false }

/-- A STORE to address 100 allocated after `loadOld` (stores are born
ready). -/
def storeYoung : LSQEntry :=
  { request := mkReq 1 100 REQTYPE.WRITE true, ready := true,
    waitingForCache := false, cache_ack := false }

/-- ROB entry matching `loadOld`. -/
def robLoadOld : ROBEntry :=
  { request := mkReq 0 100 REQTYPE.READ false, ready := false }

/-- ROB entry matching `storeYoung`. -/
def robStoreYoung : ROBEntry :=
  { request := mkReq 1 100 REQTYPE.WRITE true, ready := true }

/-- A STORE at the LSQ head that is still awaiting its cache
acknowledgment, hence not removable. -/
def storeNoAck : LSQEntry :=
  { request := mkReq 2 200 REQTYPE.WRITE true, ready := true,
    waitingForCache := true, cache_ack := false }

/-- A ready LOAD sitting behind `storeNoAck`. -/
def loadReady : LSQEntry :=
  { request := mkReq 3 300 REQTYPE.READ false, ready := true,
    waitingForCache := false, cache_ack := false }

/-- A LOAD at the LSQ head that became ready through forwarding and was
never sent to the cache. -/
def loadFwd : LSQEntry :=
  { request := mkReq 4 100 REQTYPE.READ false, ready := true,
    waitingForCache := false, cache_ack := false }

/-- A ready STORE behind `loadFwd`, not yet sent to the cache. -/
def storeReady : LSQEntry :=
  { request := mkReq 5 200 REQTYPE.WRITE true, ready := true,
    waitingForCache := false, cache_ack := false }

/-- A ready STORE entry at the ROB head, with `msgId` 6. -/
def robStoreReady : ROBEntry :=
  { request := mkReq 6 100 REQTYPE.WRITE true, ready := true }

/-- The LSQ entry of the same store as `robStoreReady`: sent to the
cache and still waiting, no acknowledgment received. -/
def lsqStoreWaiting : LSQEntry :=
  { request := mkReq 6 100 REQTYPE.WRITE true, ready := true,
    waitingForCache := true, cache_ack := false }

/-- Base driver state: empty structures, no pending work, OoO budget
16. -/
def baseState : CoreState :=
  { rob := [], lsq := [], txFIFO := { buf := [], fifoDepth := 4 },
    rxFIFO := { buf := [], fifoDepth := 4 }, coreId := 0, cpuCycle := 0,
    remaining_compute := 0, newSampleRdy := false, cpuReqDone := false,
    cpuCoreSimDone := false, sent_requests := 0, number_of_OoO_requests := 16,
    cpuReqCnt := 0, cpuRespCnt := 0,
    cpuMemReq := mkReq 0 0 REQTYPE.COMPUTE false, trace := [] }

/-- Driver state with one pending compute instruction and a free
budget. -/
def computeState : CoreState :=
  { baseState with remaining_compute := 1 }

/-- Driver state with one pending compute instruction and the in-flight
counter at the budget. -/
def blockedState : CoreState :=
  { baseState with remaining_compute := 1, sent_requests := 16 }

/-- Driver state after the single store of an exhausted trace has been
acknowledged: response count has caught up with the request count but
the acknowledged store still sits in the LSQ. -/
def doneState : CoreState :=
  { baseState with
    cpuReqDone := true
    cpuReqCnt := 1
    cpuRespCnt := 1
    lsq := [{ request := mkReq 0 100 REQTYPE.WRITE true, ready := true,
              waitingForCache := true, cache_ack := true }] }

/-- Driver state holding a pending LOAD sample while the LSQ is
completely full of unacknowledged stores. -/
def fullLsqState : CoreState :=
  { baseState with
    lsq := List.replicate 8 storeNoAck
    newSampleRdy := true
    cpuMemReq := mkReq 7 400 REQTYPE.READ false }

/-! Claim theorems. -/

/-- C1: the claim states that `ldFwd(A)` sets ready exactly for the
LOADs to A strictly younger than the selected youngest store, leaving
every older LOAD untouched.  Evaluating the embedded `LSQ::ldFwd` at a
queue holding a not-ready LOAD to address 100 that is OLDER than the
matching STORE shows the call returning true and marking that older
load ready (with a ROB commit): the marking loop of the source walks
the entire queue, so the claim fails on the code. -/
theorem ldFwd_marks_older_load :
    (LSQ.ldFwd [loadOld, storeYoung] [robLoadOld, robStoreYoung] 100).1 = true ∧
    (LSQ.ldFwd [loadOld, storeYoung] [robLoadOld, robStoreYoung] 100).2.1 =
      [{ loadOld with ready := true }, storeYoung] ∧
    (LSQ.ldFwd [loadOld, storeYoung] [robLoadOld, robStoreYoung] 100).2.2 =
      [{ robLoadOld with ready := true }, robStoreYoung] ∧
    loadOld.request.msgId < storeYoung.request.msgId := by decide

/-- C2 counterexample: the claim states that `LSQ::retire` stops at
the first non-removable head, never removing an entry behind it.  At
the queue [unacknowledged STORE, ready LOAD] the head is not
removable, yet the call removes the ready LOAD behind it. -/
theorem lsq_retire_removes_behind_head :
    LSQ.canRemove storeNoAck = false ∧
    LSQ.retire [storeNoAck, loadReady] = [storeNoAck] := by decide

/-- C2 amended: `LSQ::retire` removes exactly the entries whose
removal predicate holds (LOAD iff ready, otherwise iff `cache_ack`),
wherever they sit in the queue; a non-removable entry does not shield
the entries behind it, and the survivors keep their relative order. -/
theorem lsq_retire_filter (q : List LSQEntry) :
    LSQ.retire q = q.filter (fun e => !LSQ.canRemove e) := by
  induction q with
  | nil => rfl
  | cons e rest ih =>
    simp only [LSQ.retire, List.filter]
    by_cases h : LSQ.canRemove e = true <;> simp [h, ih]

/-- C6: the claim states that a store's `cache_ack` can only be set by
a cache response arriving through the RX FIFO.  Evaluating the
embedded `ROB::retire` at a ready STORE head whose LSQ twin has
`cache_ack = false` shows retirement alone (no RX FIFO is even in
scope) setting the store's `cache_ack` through `LSQ::commit`. -/
theorem rob_retire_sets_cache_ack :
    (ROB.retire [robStoreReady] [lsqStoreWaiting]).2 =
      [{ lsqStoreWaiting with cache_ack := true }] ∧
    lsqStoreWaiting.cache_ack = false ∧
    lsqStoreWaiting.request.msgId = robStoreReady.request.msgId := by decide

/-- C9 counterexample: the claim states that ROB `step()` performs its
retirement attempt at every cycle t.  At cycle 60 with a ready head,
`step` returns the state unchanged although `retire` would empty the
queue. -/
theorem rob_step_skips_retire_at_60 :
    ROB.step [robStoreReady] [] 60 = ([robStoreReady], [], 60) ∧
    (ROB.retire [robStoreReady] []).1 = [] := by decide

/-- C9 amended: `ROB::step` does impose an internal cycle budget of 60
cycles: for every cycle below 60 the step performs the retirement
attempt and advances the cycle, and from cycle 60 on it returns with
the whole state unchanged, never retiring again. -/
theorem rob_step_cycle_limit (rob : List ROBEntry) (lsq : List LSQEntry) (c : Nat) :
    (60 ≤ c → ROB.step rob lsq c = (rob, lsq, c)) ∧
    (c < 60 →
      ROB.step rob lsq c = ((ROB.retire rob lsq).1, (ROB.retire rob lsq).2, c + 1)) := by
  constructor
  · intro h
    simp [ROB.step, h]
  · intro h
    simp [ROB.step, Nat.not_le.mpr h]

/-- Witness instantiating `rob_step_cycle_limit` at both sides of the
cycle budget. -/
theorem rob_step_cycle_limit_witness :
    ROB.step [] [] 60 = ([], [], 60) ∧
    ROB.step [] [] 0 = ((ROB.retire [] []).1, (ROB.retire [] []).2, 1) :=
  ⟨(rob_step_cycle_limit [] [] 60).1 (by decide),
   (rob_step_cycle_limit [] [] 0).2 (by decide)⟩

theorem LSQ.pushLoop_first_sendable (q : List LSQEntry) (tx : GenericFIFO ReqMsg) :
    (q.find? LSQ.sendable = none → LSQ.pushLoop q tx = (q, tx)) ∧
    (∀ e, q.find? LSQ.sendable = some e →
      (LSQ.pushLoop q tx).2 = tx.InsertElement e.request) := by
  induction q with
  | nil => exact ⟨fun _ => rfl, fun e h => by simp at h⟩
  | cons a rest ih =>
    by_cases ha : LSQ.sendable a = true
    · refine ⟨fun h => ?_, fun e h => ?_⟩
      · rw [List.find?_cons_of_pos _ ha] at h
        exact absurd h (by simp)
      · rw [List.find?_cons_of_pos _ ha] at h
        cases h
        simp [LSQ.pushLoop, ha]
    · refine ⟨fun h => ?_, fun e h => ?_⟩
      · rw [List.find?_cons_of_neg _ ha] at h
        simp [LSQ.pushLoop, ha, ih.1 h]
      · rw [List.find?_cons_of_neg _ ha] at h
        simp [LSQ.pushLoop, ha, ih.2 e h]

/-- C3 counterexample: the claim states that only the head entry may
be emitted by `push_to_cache`.  At the queue [forwarded ready LOAD,
ready STORE] with an empty TX FIFO, the inserted request is the second
entry's store (msgId 5), not the head entry's request (msgId 4). -/
theorem pushToCache_emits_nonhead :
    ((LSQ.pushToCache [loadFwd, storeReady]
        { buf := [], fifoDepth := 4 }).2.buf.map (fun r => r.msgId) = [5]) ∧
    ([loadFwd, storeReady].head?.map (fun e => e.request.msgId) = some 4) := by decide

/-- C3 amended: per call of `LSQ::pushToCache` with a non-full TX FIFO
at most one request is inserted, namely the request of the OLDEST
entry satisfying the send predicate (ready STORE not yet sent, or
not-ready LOAD not yet sent); when no entry qualifies, nothing
changes.  The emitted entry is the first match of the scan and need
not be the head. -/
theorem pushToCache_first_sendable (q : List LSQEntry) (tx : GenericFIFO ReqMsg)
    (h : tx.IsFull = false) :
    (q.find? LSQ.sendable = none → LSQ.pushToCache q tx = (q, tx)) ∧
    (∀ e, q.find? LSQ.sendable = some e →
      (LSQ.pushToCache q tx).2 = tx.InsertElement e.request) := by
  unfold LSQ.pushToCache
  by_cases hq : q.isEmpty = true
  · have hnil : q = [] := by
      cases q with
      | nil => rfl
      | cons a t => simp [List.isEmpty] at hq
    subst hnil
    exact ⟨fun _ => by simp [h], fun e he => by simp at he⟩
  · have hq' : q.isEmpty = false := by
      cases hb : q.isEmpty
      · rfl
      · exact absurd hb hq
    rw [if_neg (by simp [hq', h])]
    exact LSQ.pushLoop_first_sendable q tx

/-- Witness instantiating `pushToCache_first_sendable` at a singleton
queue holding a ready store and an empty TX FIFO of depth 4. -/
theorem pushToCache_first_sendable_witness :
    (LSQ.pushToCache [storeReady] { buf := [], fifoDepth := 4 }).2 =
      GenericFIFO.InsertElement { buf := [], fifoDepth := 4 } storeReady.request :=
  (pushToCache_first_sendable [storeReady] { buf := [], fifoDepth := 4 }
    (by decide)).2 storeReady (by decide)

theorem ROB.retireLoop_drop (fuel : Nat) :
    ∀ (rob : List ROBEntry) (lsq : List LSQEntry), ∃ k, k ≤ fuel ∧
      ((ROB.retireLoop fuel rob lsq).1.map (fun e => e.request.msgId) =
        (rob.map (fun e => e.request.msgId)).drop k) ∧
      (k < fuel →
        (ROB.retireLoop fuel rob lsq).1 = [] ∨
        ∃ h t, (ROB.retireLoop fuel rob lsq).1 = h :: t ∧ h.ready = false) := by
  induction fuel with
  | zero =>
    intro rob lsq
    exact ⟨0, Nat.le_refl 0, by simp [ROB.retireLoop], fun hk => absurd hk (by omega)⟩
  | succ fuel ih =>
    intro rob lsq
    cases rob with
    | nil =>
      refine ⟨0, Nat.zero_le _, by simp [ROB.retireLoop], fun _ => Or.inl ?_⟩
      simp [ROB.retireLoop]
    | cons head rest =>
      by_cases hr : head.ready = true
      · by_cases ht : (head.request.type == REQTYPE.WRITE) = true
        · have hred : ROB.retireLoop (fuel + 1) (head :: rest) lsq =
              ROB.retireLoop fuel
                ((LSQ.commit lsq (head :: rest) head.request.msgId).2.tail)
                ((LSQ.commit lsq (head :: rest) head.request.msgId).1) := by
            simp [ROB.retireLoop, hr, ht]
          have hpres := LSQ.commit_rob_map lsq (head :: rest) head.request.msgId
          have hmsg : (LSQ.commit lsq (head :: rest) head.request.msgId).2.tail.map
              (fun e => e.request.msgId) = rest.map (fun e => e.request.msgId) := by
            have htail0 := List.map_tail_of_map_eq hpres
            simp only [List.tail_cons] at htail0
            have h1 : (LSQ.commit lsq (head :: rest) head.request.msgId).2.tail.map
                (fun e => e.request.msgId) =
                ((LSQ.commit lsq (head :: rest) head.request.msgId).2.tail.map
                  (fun e => e.request)).map (fun r => r.msgId) := by
              rw [List.map_map]
              rfl
            rw [h1, htail0, List.map_map]
            rfl
          obtain ⟨k, hk, hmap, hstop⟩ :=
            ih ((LSQ.commit lsq (head :: rest) head.request.msgId).2.tail)
              ((LSQ.commit lsq (head :: rest) head.request.msgId).1)
          refine ⟨k + 1, by omega, ?_, fun hlt => by rw [hred]; exact hstop (by omega)⟩
          rw [hred, hmap, hmsg]
          simp [List.drop_succ_cons]
        · have hred : ROB.retireLoop (fuel + 1) (head :: rest) lsq =
              ROB.retireLoop fuel rest lsq := by
            simp [ROB.retireLoop, hr, ht]
          obtain ⟨k, hk, hmap, hstop⟩ := ih rest lsq
          refine ⟨k + 1, by omega, ?_, fun hlt => by rw [hred]; exact hstop (by omega)⟩
          rw [hred, hmap]
          simp [List.drop_succ_cons]
      · have hred : ROB.retireLoop (fuel + 1) (head :: rest) lsq = (head :: rest, lsq) := by
          simp [ROB.retireLoop, hr]
        refine ⟨0, Nat.zero_le _, by rw [hred]; simp, fun _ => Or.inr ?_⟩
        exact ⟨head, rest, by rw [hred], by simpa using hr⟩

theorem CpuCoreGenerator.rxLoop_preserved (l : List RespMsg) (s : CoreState) :
    (CpuCoreGenerator.rxLoop l s).cpuReqDone = s.cpuReqDone ∧
    (CpuCoreGenerator.rxLoop l s).cpuReqCnt = s.cpuReqCnt ∧
    (CpuCoreGenerator.rxLoop l s).cpuCoreSimDone = s.cpuCoreSimDone ∧
    (CpuCoreGenerator.rxLoop l s).number_of_OoO_requests = s.number_of_OoO_requests ∧
    (CpuCoreGenerator.rxLoop l s).sent_requests ≤ s.sent_requests := by
  induction l generalizing s with
  | nil => exact ⟨rfl, rfl, rfl, rfl, Nat.le_refl _⟩
  | cons r rest ih =>
    simp only [CpuCoreGenerator.rxLoop]
    by_cases h : 0 < s.sent_requests
    · rw [if_pos h]
      refine ⟨(ih _).1, (ih _).2.1, (ih _).2.2.1, (ih _).2.2.2.1, ?_⟩
      exact Nat.le_trans (ih _).2.2.2.2 (by simp)
    · rw [if_neg h]
      exact ⟨(ih _).1, (ih _).2.1, (ih _).2.2.1, (ih _).2.2.2.1, (ih _).2.2.2.2⟩

/-- C4 counterexample: the claim states that the done flag is set only
when ROB and LSQ are both empty.  At a state where the trace is
exhausted and the response count equals the request count but an
acknowledged STORE still sits in the LSQ, `ProcessRxBuf` sets the done
flag anyway: the source checks only the two counters. -/
theorem processRxBuf_done_with_nonempty_lsq :
    (CpuCoreGenerator.ProcessRxBuf doneState).cpuCoreSimDone = true ∧
    (CpuCoreGenerator.ProcessRxBuf doneState).lsq ≠ [] := by decide

/-- C4 amended: `ProcessRxBuf` sets the done flag if and only if the
trace is exhausted and the response count (after draining the RX FIFO)
has reached the request count; emptiness of the ROB and LSQ and the
in-flight counter are not consulted (and the flag, once set, stays
set). -/
theorem processRxBuf_done_condition (s : CoreState) :
    (CpuCoreGenerator.ProcessRxBuf s).cpuCoreSimDone = true ↔
      (s.cpuCoreSimDone = true ∨
        (s.cpuReqDone = true ∧
          s.cpuReqCnt ≤ (CpuCoreGenerator.rxLoop s.rxFIFO.buf
            { s with rxFIFO := { s.rxFIFO with buf := [] } }).cpuRespCnt)) := by
  unfold CpuCoreGenerator.ProcessRxBuf
  have hpre := CpuCoreGenerator.rxLoop_preserved s.rxFIFO.buf
    { s with rxFIFO := { s.rxFIFO with buf := [] } }
  set s1 := CpuCoreGenerator.rxLoop s.rxFIFO.buf
    { s with rxFIFO := { s.rxFIFO with buf := [] } } with hs1
  have hd : s1.cpuReqDone = s.cpuReqDone := by simpa using hpre.1
  have hq : s1.cpuReqCnt = s.cpuReqCnt := by simpa using hpre.2.1
  have hsd : s1.cpuCoreSimDone = s.cpuCoreSimDone := by simpa using hpre.2.2.1
  by_cases hc : s1.cpuReqDone = true ∧ s1.cpuReqCnt ≤ s1.cpuRespCnt
  · rw [if_pos hc]
    constructor
    · intro _
      exact Or.inr ⟨hd ▸ hc.1, hq ▸ hc.2⟩
    · intro _
      rfl
  · rw [if_neg hc]
    rw [hsd]
    constructor
    · intro hx
      exact Or.inl hx
    · rintro (hx | ⟨hx1, hx2⟩)
      · exact hx
      · exact absurd ⟨hd.trans hx1, by rw [hq]; exact hx2⟩ hc

/-- C7 counterexample: the claim states that allocating a COMPUTE
never changes the in-flight counter and that the budget gate never
blocks compute dispatch.  Dispatching one compute instruction from an
empty pipeline raises the counter from 0 to 1, and at a state whose
counter sits at the budget of 16 the compute instruction is not
dispatched although the ROB has room. -/
theorem computeDispatch_gate_blocks_compute :
    (CpuCoreGenerator.computeDispatch computeState).sent_requests = 1 ∧
    computeState.sent_requests = 0 ∧
    CpuCoreGenerator.computeDispatch blockedState = blockedState ∧
    0 < blockedState.remaining_compute ∧
    ROB.canAccept blockedState.rob = true := by decide

/-- C7 amended: a COMPUTE allocation increments the in-flight counter
(and consumes a `msgId` and one pending compute), and the budget gate
blocks compute dispatch entirely once the counter has reached
`max_ooo_requests`: COMPUTE co-allocations do count toward the OoO
request budget. -/
theorem computeDispatch_counts_toward_budget (s : CoreState) :
    (ROB.canAccept s.rob = true → s.sent_requests < s.number_of_OoO_requests →
      (CpuCoreGenerator.computeDispatch s).sent_requests = s.sent_requests + 1 ∧
      (CpuCoreGenerator.computeDispatch s).remaining_compute = s.remaining_compute - 1 ∧
      (CpuCoreGenerator.computeDispatch s).cpuReqCnt = s.cpuReqCnt + 1) ∧
    (s.number_of_OoO_requests ≤ s.sent_requests →
      CpuCoreGenerator.computeDispatch s = s) := by
  constructor
  · intro h1 h2
    unfold CpuCoreGenerator.computeDispatch
    rw [if_pos ⟨h1, h2⟩]
    dsimp only
    split
    · exact ⟨rfl, rfl, rfl⟩
    case _ heq =>
      exfalso
      unfold ROB.allocate at heq
      rw [if_pos h1] at heq
      cases heq
  · intro h
    unfold CpuCoreGenerator.computeDispatch
    rw [if_neg (by rintro ⟨-, hx⟩; omega)]

/-- Witness instantiating `computeDispatch_counts_toward_budget` at a
state with a free budget and at a state whose counter sits at the
budget. -/
theorem computeDispatch_counts_toward_budget_witness :
    ((CpuCoreGenerator.computeDispatch computeState).sent_requests =
        computeState.sent_requests + 1 ∧
      (CpuCoreGenerator.computeDispatch computeState).remaining_compute =
        computeState.remaining_compute - 1 ∧
      (CpuCoreGenerator.computeDispatch computeState).cpuReqCnt =
        computeState.cpuReqCnt + 1) ∧
    CpuCoreGenerator.computeDispatch blockedState = blockedState :=
  ⟨(computeDispatch_counts_toward_budget computeState).1 (by decide) (by decide),
   (computeDispatch_counts_toward_budget blockedState).2 (by decide)⟩

/-- C8: when the ROB allocation of a memory operation succeeds and the
LSQ allocation then fails, the co-allocation block rolls the ROB back
with exactly one `removeLastEntry` call and afterwards the ROB and the
LSQ (hence their sizes) as well as the in-flight counter and the
pending-sample flag all equal their pre-attempt values. -/
theorem coAllocate_rollback (s : CoreState) (rob1 : List ROBEntry)
    (h1 : ROB.allocate s.rob s.cpuMemReq = some rob1)
    (h2 : LSQ.allocate s.lsq rob1 s.cpuMemReq = none) :
    (CpuCoreGenerator.coAllocate s).2 = 1 ∧
    (CpuCoreGenerator.coAllocate s).1.rob = s.rob ∧
    (CpuCoreGenerator.coAllocate s).1.lsq = s.lsq ∧
    (CpuCoreGenerator.coAllocate s).1.sent_requests = s.sent_requests ∧
    (CpuCoreGenerator.coAllocate s).1.newSampleRdy = s.newSampleRdy := by
  have hrob : rob1 = s.rob ++
      [{ request := s.cpuMemReq, ready := s.cpuMemReq.type == REQTYPE.COMPUTE }] := by
    unfold ROB.allocate at h1
    split at h1
    · cases h1
      rfl
    · cases h1
  have hremove : ROB.removeLastEntry rob1 = s.rob := by
    rw [hrob]
    unfold ROB.removeLastEntry
    rw [if_neg (by simp)]
    exact List.dropLast_concat
  simp [CpuCoreGenerator.coAllocate, h1, h2, hremove]

/-- Witness instantiating `coAllocate_rollback` at a state whose LSQ
is full of unacknowledged stores while a LOAD sample is pending. -/
theorem coAllocate_rollback_witness :
    (CpuCoreGenerator.coAllocate fullLsqState).2 = 1 ∧
    (CpuCoreGenerator.coAllocate fullLsqState).1.rob = fullLsqState.rob ∧
    (CpuCoreGenerator.coAllocate fullLsqState).1.lsq = fullLsqState.lsq ∧
    (CpuCoreGenerator.coAllocate fullLsqState).1.sent_requests =
      fullLsqState.sent_requests ∧
    (CpuCoreGenerator.coAllocate fullLsqState).1.newSampleRdy =
      fullLsqState.newSampleRdy :=
  coAllocate_rollback fullLsqState
    [{ request := mkReq 7 400 REQTYPE.READ false, ready := false }]
    (by decide) (by decide)

theorem CpuCoreGenerator.computeDispatch_budget (s : CoreState)
    (h : s.sent_requests ≤ s.number_of_OoO_requests) :
    (CpuCoreGenerator.computeDispatch s).number_of_OoO_requests =
      s.number_of_OoO_requests ∧
    (CpuCoreGenerator.computeDispatch s).sent_requests ≤ s.number_of_OoO_requests := by
  unfold CpuCoreGenerator.computeDispatch
  split
  case isTrue hc =>
    obtain ⟨hc1, hc2⟩ := hc
    dsimp only
    split
    · exact ⟨rfl, by dsimp only; omega⟩
    · exact ⟨rfl, h⟩
  case isFalse hc => exact ⟨rfl, h⟩

theorem CpuCoreGenerator.readTraceLine_budget (s : CoreState) :
    (CpuCoreGenerator.readTraceLine s).1.sent_requests = s.sent_requests ∧
    (CpuCoreGenerator.readTraceLine s).1.number_of_OoO_requests =
      s.number_of_OoO_requests := by
  unfold CpuCoreGenerator.readTraceLine
  split
  · exact ⟨rfl, rfl⟩
  · split
    · exact ⟨rfl, rfl⟩
    · split
      · exact ⟨rfl, rfl⟩
      · split
        · exact ⟨rfl, rfl⟩
        · split
          · exact ⟨rfl, rfl⟩
          · exact ⟨rfl, rfl⟩

theorem CpuCoreGenerator.coAllocate_budget (s : CoreState) :
    (CpuCoreGenerator.coAllocate s).1.number_of_OoO_requests =
      s.number_of_OoO_requests ∧
    ((CpuCoreGenerator.coAllocate s).1.sent_requests = s.sent_requests ∨
      (CpuCoreGenerator.coAllocate s).1.sent_requests = s.sent_requests + 1) := by
  unfold CpuCoreGenerator.coAllocate
  split
  · exact ⟨rfl, Or.inl rfl⟩
  · split
    · exact ⟨rfl, Or.inl rfl⟩
    · exact ⟨rfl, Or.inr rfl⟩

theorem CpuCoreGenerator.memDispatch_budget (s : CoreState)
    (h : s.sent_requests ≤ s.number_of_OoO_requests) :
    (CpuCoreGenerator.memDispatch s).number_of_OoO_requests =
      s.number_of_OoO_requests ∧
    (CpuCoreGenerator.memDispatch s).sent_requests ≤ s.number_of_OoO_requests := by
  unfold CpuCoreGenerator.memDispatch
  split
  case isTrue hc =>
    have hval : ∀ t : CoreState, t.sent_requests = s.sent_requests →
        t.number_of_OoO_requests = s.number_of_OoO_requests →
        (CpuCoreGenerator.coAllocate t).1.number_of_OoO_requests =
          s.number_of_OoO_requests ∧
        (CpuCoreGenerator.coAllocate t).1.sent_requests ≤
          s.number_of_OoO_requests := by
      intro t h1 h2
      obtain ⟨hn, hs⟩ := CpuCoreGenerator.coAllocate_budget t
      refine ⟨hn.trans h2, ?_⟩
      rcases hs with hs | hs <;> rw [hs, h1] <;> omega
    dsimp only
    split
    · split
      · exact hval _ rfl rfl
      · exact hval _ rfl rfl
    · exact hval _ rfl rfl
  case isFalse hc => exact ⟨rfl, h⟩

theorem CpuCoreGenerator.txTail_budget (s : CoreState)
    (h : s.sent_requests ≤ s.number_of_OoO_requests) :
    (CpuCoreGenerator.txTail s).number_of_OoO_requests = s.number_of_OoO_requests ∧
    (CpuCoreGenerator.txTail s).sent_requests ≤ s.number_of_OoO_requests := by
  unfold CpuCoreGenerator.txTail
  split
  · exact ⟨rfl, h⟩
  · dsimp only
    by_cases hcond : (!s.newSampleRdy && !s.cpuReqDone && s.remaining_compute == 0) = true
    · rw [if_pos hcond]
      obtain ⟨hs, hn⟩ := CpuCoreGenerator.readTraceLine_budget s
      split
      · exact ⟨hn, by rw [hs]; exact h⟩
      · split
        · have hmd := CpuCoreGenerator.memDispatch_budget
            (CpuCoreGenerator.readTraceLine s).1 (by rw [hs, hn]; exact h)
          exact ⟨hmd.1.trans hn, by rw [hn] at hmd; exact hmd.2⟩
        · exact ⟨hn, by rw [hs]; exact h⟩
    · rw [if_neg hcond]
      rw [if_neg (by simp)]
      split
      · exact CpuCoreGenerator.memDispatch_budget s h
      · exact ⟨rfl, h⟩

theorem CpuCoreGenerator.ProcessTxBuf_budget (s : CoreState)
    (h : s.sent_requests ≤ s.number_of_OoO_requests) :
    (CpuCoreGenerator.ProcessTxBuf s).number_of_OoO_requests =
      s.number_of_OoO_requests ∧
    (CpuCoreGenerator.ProcessTxBuf s).sent_requests ≤ s.number_of_OoO_requests := by
  unfold CpuCoreGenerator.ProcessTxBuf
  have hstage : ∀ t : CoreState, t.sent_requests = s.sent_requests →
      t.number_of_OoO_requests = s.number_of_OoO_requests →
      (if 0 < t.remaining_compute then
        (if 0 < (CpuCoreGenerator.computeDispatch t).remaining_compute then
          CpuCoreGenerator.computeDispatch t
        else CpuCoreGenerator.txTail (CpuCoreGenerator.computeDispatch t))
      else CpuCoreGenerator.txTail t).number_of_OoO_requests =
        s.number_of_OoO_requests ∧
      (if 0 < t.remaining_compute then
        (if 0 < (CpuCoreGenerator.computeDispatch t).remaining_compute then
          CpuCoreGenerator.computeDispatch t
        else CpuCoreGenerator.txTail (CpuCoreGenerator.computeDispatch t))
      else CpuCoreGenerator.txTail t).sent_requests ≤ s.number_of_OoO_requests := by
    intro t h1 h2
    have ht : t.sent_requests ≤ t.number_of_OoO_requests := by omega
    obtain ⟨hcn, hcs⟩ := CpuCoreGenerator.computeDispatch_budget t ht
    split
    · split
      · exact ⟨hcn.trans h2, h2 ▸ hcs⟩
      · have := CpuCoreGenerator.txTail_budget (CpuCoreGenerator.computeDispatch t)
          (by rw [hcn]; exact hcs)
        exact ⟨(this.1.trans hcn).trans h2, h2 ▸ hcn ▸ this.2⟩
    · have := CpuCoreGenerator.txTail_budget t ht
      exact ⟨this.1.trans h2, h2 ▸ this.2⟩
  dsimp only
  split
  · exact hstage _ rfl rfl
  · exact hstage _ rfl rfl

theorem CpuCoreGenerator.ProcessRxBuf_budget (s : CoreState)
    (h : s.sent_requests ≤ s.number_of_OoO_requests) :
    (CpuCoreGenerator.ProcessRxBuf s).number_of_OoO_requests =
      s.number_of_OoO_requests ∧
    (CpuCoreGenerator.ProcessRxBuf s).sent_requests ≤ s.number_of_OoO_requests := by
  unfold CpuCoreGenerator.ProcessRxBuf
  have hpre := CpuCoreGenerator.rxLoop_preserved s.rxFIFO.buf
    { s with rxFIFO := { s.rxFIFO with buf := [] } }
  have hn : (CpuCoreGenerator.rxLoop s.rxFIFO.buf
      { s with rxFIFO := { s.rxFIFO with buf := [] } }).number_of_OoO_requests =
      s.number_of_OoO_requests := by simpa using hpre.2.2.2.1
  have hs : (CpuCoreGenerator.rxLoop s.rxFIFO.buf
      { s with rxFIFO := { s.rxFIFO with buf := [] } }).sent_requests ≤
      s.sent_requests := by simpa using hpre.2.2.2.2
  dsimp only
  split
  · exact ⟨hn, hs.trans h⟩
  · exact ⟨hn, hs.trans h⟩

theorem CpuCoreGenerator.runStages_budget (stages : List CoreStage) :
    ∀ s : CoreState, s.sent_requests ≤ s.number_of_OoO_requests →
      (CpuCoreGenerator.runStages stages s).sent_requests ≤
        (CpuCoreGenerator.runStages stages s).number_of_OoO_requests := by
  induction stages with
  | nil => intro s h; exact h
  | cons st rest ih =>
    intro s h
    cases st with
    | tx =>
      obtain ⟨hn, hs⟩ := CpuCoreGenerator.ProcessTxBuf_budget s h
      exact ih _ (by
        show (CpuCoreGenerator.ProcessTxBuf s).sent_requests ≤
          (CpuCoreGenerator.ProcessTxBuf s).number_of_OoO_requests
        rw [hn]
        exact hs)
    | rx =>
      obtain ⟨hn, hs⟩ := CpuCoreGenerator.ProcessRxBuf_budget s h
      exact ih _ (by
        show (CpuCoreGenerator.ProcessRxBuf s).sent_requests ≤
          (CpuCoreGenerator.ProcessRxBuf s).number_of_OoO_requests
        rw [hn]
        exact hs)

/-- C10: starting from an in-flight counter of 0, after any sequence
of TX and RX driver stages the counter `m_sent_requests` stays at most
`m_number_of_OoO_requests` (and, being a natural number whose every
decrement in the source is guarded by a positivity test, never drops
below 0): every increment is guarded by the budget comparison and the
budget itself is never written by the stages. -/
theorem sent_requests_bounded (stages : List CoreStage) (s : CoreState)
    (h : s.sent_requests = 0) :
    (CpuCoreGenerator.runStages stages s).sent_requests ≤
      (CpuCoreGenerator.runStages stages s).number_of_OoO_requests :=
  CpuCoreGenerator.runStages_budget stages s (by omega)

/-- Witness instantiating `sent_requests_bounded` at the base state
and a TX-RX stage pair. -/
theorem sent_requests_bounded_witness :
    (CpuCoreGenerator.runStages [CoreStage.tx, CoreStage.rx] baseState).sent_requests ≤
      (CpuCoreGenerator.runStages [CoreStage.tx, CoreStage.rx]
        baseState).number_of_OoO_requests :=
  sent_requests_bounded [CoreStage.tx, CoreStage.rx] baseState (by decide)

/-- C5: per call of `ROB::retire`, retirement pops entries only from
the head of the queue: the surviving msgId sequence is the original
sequence with its first k elements dropped for some k at most `IPC`
(so at most IPC entries retire per cycle, in dispatch order), and when
the call consumed less than its IPC budget the queue is either empty
or its new head is not ready (retirement stopped at the first
non-ready head). -/
theorem rob_retire_inorder_ipc (rob : List ROBEntry) (lsq : List LSQEntry) :
    ∃ k, k ≤ ROB.IPC ∧
      ((ROB.retire rob lsq).1.map (fun e => e.request.msgId) =
        (rob.map (fun e => e.request.msgId)).drop k) ∧
      (k < ROB.IPC →
        (ROB.retire rob lsq).1 = [] ∨
        ∃ h t, (ROB.retire rob lsq).1 = h :: t ∧ h.ready = false) :=
  ROB.retireLoop_drop ROB.IPC rob lsq
